import Mathlib

/-!
Verification of the AIME cost-tiered model-routing engine and bridge layer.

The routing engine (Task Classifier, Tier Selector, Escalation Engine, Cost
Tracker, Router Façade) is imported by the server as
`./routing/model-router/index.js`, but that module is absent from the
repository snapshot; only its callers are present.  Those components are
therefore modelled from the specification (marked `Modelled from the spec:`).
The BridgeLayer definitions are translated directly from the source file
containing `class BridgeLayer`.

Numeric cost rates and confidence scores are embedded as rationals.
-/

namespace AimeRouter

/-- Task categories, the enumerated task kinds of the spec
(routing-classification, data-lookup, conversational-response,
reasoning/error-recovery). -/
inductive Category where
  | routingClassification
  | dataLookup
  | conversationalResponse
  | reasoningErrorRecovery
deriving DecidableEq, Repr

/-- Modelled from the spec: `TierDefinition` of the missing
`routing/model-router` module (§3).  `supportsTools` embeds the
tool-invocation capability flag of `capabilityFlags`; timing-irrelevant
fields (`providerRef`) are not needed by any operation modelled here. -/
structure TierDefinition where
  tierId : Nat
  inputCostPerUnit : ℚ
  outputCostPerUnit : ℚ
  supportsTools : Bool
deriving DecidableEq, Repr

/-- Modelled from the spec: `TaskRequest` (§3); the payload is opaque to the
engine beyond its size, so only its length is carried. -/
structure TaskRequest where
  payloadLength : Nat
  category : Category
  requiresTools : Bool
  minTierHint : Option Nat
deriving DecidableEq, Repr

/-- Size classes derived from payload length (§4.1). -/
inductive SizeClass where
  | small
  | medium
  | large
deriving DecidableEq, Repr

/-- Modelled from the spec: `TaskProfile` (§3). -/
structure TaskProfile where
  category : Category
  requiresTools : Bool
  sizeClass : SizeClass
  suggestedTier : Nat
deriving DecidableEq, Repr

/-- Modelled from the spec: outcome kinds of one `ExecutionAttempt` (§3). -/
inductive OutcomeKind where
  | success
  | lowConfidence
  | providerError
  | providerUnavailable
deriving DecidableEq, Repr

/-- Modelled from the spec: `ExecutionAttempt` (§3); wall-clock fields
(`startedAt`, `durationMs`) are omitted, no modelled operation reads them. -/
structure ExecutionAttempt where
  tierId : Nat
  outcomeKind : OutcomeKind
  confidenceScore : Option ℚ
  inputUnits : Nat
  outputUnits : Nat
deriving DecidableEq, Repr

/-- Modelled from the spec: the Provider Adapter result shape (§6):
`invoke -> { outcomeKind, confidence?, responseText, inputUnits, outputUnits }`
or an unavailability signal.  `ok` carries an optional confidence; an adapter
that cannot report one yields `none` and the engine treats success as fully
confident (§4.3). -/
inductive ProviderResult where
  | unavailable
  | error (inputUnits outputUnits : Nat)
  | ok (confidence : Option ℚ) (responseText : String) (inputUnits outputUnits : Nat)
deriving DecidableEq, Repr

/-- Modelled from the spec: `RoutingOutcome` (§3). -/
structure RoutingOutcome where
  finalTierId : Nat
  attempts : List ExecutionAttempt
  result : Option String
  degraded : Bool
  totalCost : ℚ
deriving DecidableEq, Repr

/-- Result of one escalation run: the recorded attempts, the returned result
(if any), and the degraded flag. -/
structure EscalationResult where
  attempts : List ExecutionAttempt
  result : Option String
  degraded : Bool
deriving DecidableEq, Repr

/-- Modelled from the spec: the Escalation Engine state machine (§4.3), run
over the ascending list of tiers starting at the selected one.  Transition
rules: provider-unavailable and provider-error record the attempt and
escalate; success with confidence ≥ threshold is accepted; success below
threshold records low-confidence and escalates, except at the highest tier
where the last attempt's result is returned flagged degraded. -/
def runTiers (th : ℚ) (adapter : Nat → ProviderResult) :
    List TierDefinition → EscalationResult
  | [] => ⟨[], none, false⟩
  | t :: rest =>
    match adapter t.tierId with
    | .unavailable =>
      let r := runTiers th adapter rest
      ⟨⟨t.tierId, .providerUnavailable, none, 0, 0⟩ :: r.attempts, r.result, r.degraded⟩
    | .error iu ou =>
      let r := runTiers th adapter rest
      ⟨⟨t.tierId, .providerError, none, iu, ou⟩ :: r.attempts, r.result, r.degraded⟩
    | .ok conf text iu ou =>
      let c := conf.getD 1
      if th ≤ c then
        ⟨[⟨t.tierId, .success, some c, iu, ou⟩], some text, false⟩
      else
        match rest with
        | [] => ⟨[⟨t.tierId, .lowConfidence, some c, iu, ou⟩], some text, true⟩
        | r1 :: rs =>
          let r := runTiers th adapter (r1 :: rs)
          ⟨⟨t.tierId, .lowConfidence, some c, iu, ou⟩ :: r.attempts, r.result, r.degraded⟩

/-- Modelled from the spec: the spec's suggested default acceptance
threshold, 0.7 (§4.3, §9). -/
def defaultThreshold : ℚ := 7 / 10

/-- Modelled from the spec: the routing configuration surface (§6): ordered
tier list with cost rates and capability flags, a category→tier routing
table, a per-category confidence-acceptance threshold, and the two fixed
payload-size thresholds of §4.1. -/
structure RouterConfig where
  tiers : List TierDefinition
  routingTable : Category → Option Nat
  acceptThreshold : Category → ℚ
  smallMax : Nat
  mediumMax : Nat

/-- Modelled from the spec: `sizeClass` computed from payload length against
two fixed thresholds (§4.1). -/
def sizeClassOf (cfg : RouterConfig) (len : Nat) : SizeClass :=
  if len ≤ cfg.smallMax then .small
  else if len ≤ cfg.mediumMax then .medium
  else .large

/-- Tool-capability lookup for a tierId in the registry; an unknown tier has
no capabilities. -/
def tierSupportsTools (tiers : List TierDefinition) (tid : Nat) : Bool :=
  match tiers.find? (fun t => t.tierId == tid) with
  | some t => t.supportsTools
  | none => false

/-- The lowest-ranked tool-capable tier of the registry (the registry list is
ordered by ascending tierId, so the first match is the lowest). -/
def lowestToolTier (tiers : List TierDefinition) : Option Nat :=
  (tiers.find? (fun t => t.supportsTools)).map (fun t => t.tierId)

/-- Modelled from the spec: classifier failures (§4.1): an unmapped category
fails with `ClassificationError`; when tools are required but no configured
tier supports them no raise target exists. -/
inductive ClassifyError where
  | unmappedCategory (c : Category)
  | noToolCapableTier
deriving DecidableEq, Repr

/-- Modelled from the spec: the Task Classifier (§4.1).  Look up the category
in the routing table for a base tier; if tools are required and the base tier
lacks tool support, raise to the lowest-ranked tool-capable tier; if a
`minTierHint` ranks higher than the computed suggestion use the hint (hints
only raise, never lower). -/
def classify (cfg : RouterConfig) (req : TaskRequest) :
    Except ClassifyError TaskProfile :=
  match cfg.routingTable req.category with
  | none => .error (.unmappedCategory req.category)
  | some base =>
    let toolBase :=
      if req.requiresTools && !(tierSupportsTools cfg.tiers base) then
        lowestToolTier cfg.tiers
      else
        some base
    match toolBase with
    | none => .error .noToolCapableTier
    | some tb =>
      let suggested :=
        match req.minTierHint with
        | some h => if tb < h then h else tb
        | none => tb
      .ok ⟨req.category, req.requiresTools, sizeClassOf cfg req.payloadLength, suggested⟩

/-- Per-tier counter set of the process-wide `CostLedger` (§3). -/
structure TierCounters where
  callCount : Nat
  inputUnitsTotal : Nat
  outputUnitsTotal : Nat
  costTotal : ℚ
deriving DecidableEq, Repr

/-- Modelled from the spec: the `CostLedger`, one counter set per tierId. -/
def CostLedger : Type := Nat → TierCounters

/-- The all-zero ledger (process start). -/
def zeroLedger : CostLedger := fun _ => ⟨0, 0, 0, 0⟩

/-- Cost rates of a tierId in the registry (zero for an unknown tier). -/
def tierRates (tiers : List TierDefinition) (tid : Nat) : ℚ × ℚ :=
  match tiers.find? (fun t => t.tierId == tid) with
  | some t => (t.inputCostPerUnit, t.outputCostPerUnit)
  | none => (0, 0)

/-- Modelled from the spec: the Cost Tracker's `record` (§4.4): increments
`callCount`, adds to the unit totals, and adds
`inputUnits * inputCostPerUnit + outputUnits * outputCostPerUnit` to
`costTotal` of the given tier, leaving other tiers untouched. -/
def record (tiers : List TierDefinition) (ledger : CostLedger)
    (tid iu ou : Nat) : CostLedger :=
  fun i =>
    if i = tid then
      let c := ledger i
      let rates := tierRates tiers tid
      ⟨c.callCount + 1, c.inputUnitsTotal + iu, c.outputUnitsTotal + ou,
        c.costTotal + iu * rates.1 + ou * rates.2⟩
    else ledger i

/-- Cost of one execution attempt at the registry's rates for its tier. -/
def attemptCost (tiers : List TierDefinition) (a : ExecutionAttempt) : ℚ :=
  let rates := tierRates tiers a.tierId
  a.inputUnits * rates.1 + a.outputUnits * rates.2

/-- Record every attempt of an escalation run into the ledger
(provider-unavailable attempts carry zero units, hence record zero cost). -/
def recordAttempts (tiers : List TierDefinition) (ledger : CostLedger)
    (attempts : List ExecutionAttempt) : CostLedger :=
  attempts.foldl (fun l a => record tiers l a.tierId a.inputUnits a.outputUnits) ledger

/-- Modelled from the spec: router-level failures (§7): configuration errors
are fatal and surfaced immediately. -/
inductive RouterError where
  | classification (e : ClassifyError)
  | unknownTier (tid : Nat)
deriving DecidableEq, Repr

/-- The suffix of the registry at or above the starting tier; the escalation
engine only ever advances to strictly higher tiers. -/
def tiersFrom (tiers : List TierDefinition) (start : Nat) : List TierDefinition :=
  tiers.filter (fun t => decide (start ≤ t.tierId))

/-- Modelled from the spec: the Router Façade's `execute` (§4.5): classify,
select (resolve the suggested tier against the registry, failing with
`UnknownTierError` if absent), run the escalation engine from the starting
tier, record every attempt in the cost ledger, and return the outcome. -/
def execute (cfg : RouterConfig) (adapter : Nat → ProviderResult)
    (req : TaskRequest) (ledger : CostLedger) :
    Except RouterError (RoutingOutcome × CostLedger) :=
  match classify cfg req with
  | .error e => .error (.classification e)
  | .ok profile =>
    match cfg.tiers.find? (fun t => t.tierId == profile.suggestedTier) with
    | none => .error (.unknownTier profile.suggestedTier)
    | some _ =>
      let r := runTiers (cfg.acceptThreshold req.category) adapter
        (tiersFrom cfg.tiers profile.suggestedTier)
      let finalTier :=
        match r.attempts.getLast? with
        | some a => a.tierId
        | none => profile.suggestedTier
      .ok (⟨finalTier, r.attempts, r.result, r.degraded,
              ((r.attempts.map (attemptCost cfg.tiers)).sum)⟩,
           recordAttempts cfg.tiers ledger r.attempts)

/-- One per-tier line of a cost report. -/
structure TierReportEntry where
  tierId : Nat
  callCount : Nat
  costTotal : ℚ
deriving DecidableEq, Repr

/-- Modelled from the spec: the `CostReport` (§4.4): per tier the call count
and total cost, plus the cost-if-every-call-had-used-the-highest-tier
baseline and the resulting percentage savings. -/
structure CostReport where
  entries : List TierReportEntry
  totalCost : ℚ
  baselineCost : ℚ
  savingsPercent : ℚ
deriving DecidableEq, Repr

/-- Modelled from the spec: build the cost report from the registry and the
ledger (§4.4).  The baseline re-prices every tier's accumulated units at the
highest tier's rates. -/
def mkReport (tiers : List TierDefinition) (ledger : CostLedger) : CostReport :=
  let topRates :=
    match tiers.getLast? with
    | some t => (t.inputCostPerUnit, t.outputCostPerUnit)
    | none => ((0 : ℚ), (0 : ℚ))
  let total := (tiers.map (fun t => (ledger t.tierId).costTotal)).sum
  let baseline := (tiers.map (fun t =>
    ((ledger t.tierId).inputUnitsTotal : ℚ) * topRates.1 +
    ((ledger t.tierId).outputUnitsTotal : ℚ) * topRates.2)).sum
  ⟨tiers.map (fun t => ⟨t.tierId, (ledger t.tierId).callCount, (ledger t.tierId).costTotal⟩),
    total, baseline,
    if baseline = 0 then 0 else (baseline - total) / baseline * 100⟩

/-- Modelled from the spec: the report operation as exposed by the façade
(`report()` / the `getCostReport` endpoint): it reads the ledger and returns
the report together with the (unchanged) ledger state; only `execute`
mutates the ledger (§4.4, §4.5). -/
def reportOp (tiers : List TierDefinition) (ledger : CostLedger) :
    CostReport × CostLedger :=
  (mkReport tiers ledger, ledger)

end AimeRouter

namespace AimeBridge

/-- JavaScript runtime failures observable through a rejected promise. -/
inductive JsError where
  | typeError (msg : String)
deriving DecidableEq, Repr

/-- Construction input of the bridge layer (`BridgeLayerConfig` in the
source): every collaborator is optional.  The collaborator types are opaque
to the bridge, so they are type parameters. -/
structure BridgeLayerConfig (G M R RC : Type) where
  ghlPlugin : Option G
  memoryManager : Option M
  modelRouter : Option R
  redisClient : Option RC

/-- The transcript processor holds the three collaborators it is constructed
with (`new TranscriptProcessor(ghlPlugin, memoryManager, modelRouter)`); its
behaviour lives in a module absent from the snapshot and is passed as a
function where needed. -/
structure TranscriptProcessor (G M R : Type) where
  ghlPlugin : G
  memoryManager : M
  modelRouter : R

/-- The context provider holds the memory manager it is constructed with. -/
structure ContextProvider (M : Type) where
  memoryManager : M

/-- The event sync holds the (optional) redis client it is constructed
with. -/
structure EventSync (RC : Type) where
  redisClient : Option RC

/-- The bridge layer state after construction. -/
structure BridgeLayer (G M R RC : Type) where
  ghlPlugin : Option G
  memoryManager : Option M
  modelRouter : Option R
  transcriptProcessor : Option (TranscriptProcessor G M R)
  contextProvider : Option (ContextProvider M)
  eventSync : EventSync RC

/-- The `BridgeLayer` constructor: copies the optional collaborators and
creates the transcript processor only when `ghlPlugin`, `memoryManager` and
`modelRouter` are all present (`if (this.ghlPlugin && this.memoryManager &&
this.modelRouter)`), the context provider only when `memoryManager` is
present, and always creates the event sync. -/
def BridgeLayer.create {G M R RC : Type} (config : BridgeLayerConfig G M R RC) :
    BridgeLayer G M R RC :=
  { ghlPlugin := config.ghlPlugin
    memoryManager := config.memoryManager
    modelRouter := config.modelRouter
    transcriptProcessor :=
      match config.ghlPlugin, config.memoryManager, config.modelRouter with
      | some g, some m, some r => some ⟨g, m, r⟩
      | _, _, _ => none
    contextProvider :=
      match config.memoryManager with
      | some m => some ⟨m⟩
      | none => none
    eventSync := ⟨config.redisClient⟩ }

/-- Input of `processCall` (the `POST /api/bridge/process-call` payload). -/
structure ProcessCallData where
  contactId : String
  locationId : String
  phone : Option String
  transcript : String
  durationSeconds : Nat
  roomName : String
deriving DecidableEq, Repr

/-- Result shape of `processCallTranscript`. -/
structure ProcessCallResult where
  success : Bool
  tasksCreated : Nat
deriving DecidableEq, Repr

/-- Behaviour of `TranscriptProcessor.processCallTranscript(locationId,
contactId, transcript, durationSeconds)`; its implementation is not in the
snapshot, so it is a parameter. -/
def TranscriptRun (G M R : Type) : Type :=
  TranscriptProcessor G M R → String → String → String → Nat →
    Except JsError ProcessCallResult

/-- `BridgeLayer.processCall`: calls
`this.transcriptProcessor.processCallTranscript(...)` with no guard — when
`transcriptProcessor` is `undefined` the property access throws a
`TypeError` and the promise rejects. -/
def BridgeLayer.processCall {G M R RC : Type} (b : BridgeLayer G M R RC)
    (run : TranscriptRun G M R) (data : ProcessCallData) :
    Except JsError ProcessCallResult :=
  match b.transcriptProcessor with
  | none => .error (.typeError
      "Cannot read properties of undefined (reading 'processCallTranscript')")
  | some tp => run tp data.locationId data.contactId data.transcript data.durationSeconds

/-- Input of `processTranscript` (agent lifecycle hook). -/
structure ProcessTranscriptData where
  roomName : String
  contactId : String
  transcript : String
  duration : Nat
deriving DecidableEq, Repr

/-- `BridgeLayer.processTranscript`: guarded by
`if (data.contactId && data.transcript && this.transcriptProcessor)`; when
the guard fails (in particular when `transcriptProcessor` is `undefined`) it
resolves without doing anything. -/
def BridgeLayer.processTranscript {G M R RC : Type} (b : BridgeLayer G M R RC)
    (run : TranscriptRun G M R) (data : ProcessTranscriptData) :
    Except JsError Unit :=
  if data.contactId ≠ "" ∧ data.transcript ≠ "" then
    match b.transcriptProcessor with
    | some tp =>
      (run tp "" data.contactId data.transcript data.duration).map (fun _ => ())
    | none => .ok ()
  else .ok ()

/-- `BridgeLayer.checkAvailability(locationId, date, serviceType)`: the body
ignores every argument and returns the hard-coded mock slot list. -/
def BridgeLayer.checkAvailability {G M R RC : Type} (_b : BridgeLayer G M R RC)
    (_locationId _date _serviceType : String) : List String :=
  ["09:00 AM", "10:00 AM", "02:00 PM", "03:00 PM"]

/-- A bridge construction config with the model router absent, used to
instantiate the bridge claims. -/
def noRouterConfig : BridgeLayerConfig Unit Unit Unit Unit :=
  ⟨some (), some (), none, none⟩

end AimeBridge

namespace AimeRouter

/-- Modelled from the spec: non-accepting adapter behaviour at a tier
(§4.3): unavailability, a provider error, or a success below the acceptance
threshold — each records the attempt and escalates past the tier. -/
def Escalates (th : ℚ) (adapter : Nat → ProviderResult) (t : TierDefinition) : Prop :=
  adapter t.tierId = .unavailable ∨
  (∃ iu ou, adapter t.tierId = .error iu ou) ∨
  (∃ conf text iu ou, adapter t.tierId = .ok conf text iu ou ∧ conf.getD 1 < th)

/-- A three-tier demo registry matching the repository's documented T0/T1/T2
shape (free local tier, cheap tier, tool-capable top tier), used to
instantiate the claim theorems on concrete inputs. -/
def demoTiers : List TierDefinition :=
  [⟨0, 0, 0, false⟩, ⟨1, 1 / 4, 1 / 2, false⟩, ⟨2, 3, 15, true⟩]

/-- A demo routing configuration over `demoTiers` with the default 0.7
acceptance threshold for every category. -/
def demoCfg : RouterConfig where
  tiers := demoTiers
  routingTable := fun c =>
    match c with
    | .routingClassification => some 0
    | .dataLookup => some 1
    | .conversationalResponse => some 2
    | .reasoningErrorRecovery => some 2
  acceptThreshold := fun _ => defaultThreshold
  smallMax := 100
  mediumMax := 1000

/-- A demo adapter answering every tier confidently. -/
def demoAdapterOk : Nat → ProviderResult :=
  fun _ => .ok (some (9 / 10)) "answer" 10 5

/-- A demo adapter failing every tier with a provider error. -/
def demoAdapterErr : Nat → ProviderResult :=
  fun _ => .error 0 0

/-- A demo adapter answering every tier with confidence 0.5, below the
default threshold. -/
def demoAdapterLow : Nat → ProviderResult :=
  fun _ => .ok (some (1 / 2)) "best effort" 3 4

end AimeRouter

open AimeRouter AimeBridge

/-- Helper: in a registry with strictly increasing tierIds, looking up a
member tier's tierId finds exactly that tier. -/
theorem find?_tierId_of_mem (tiers : List TierDefinition)
    (hs : tiers.Pairwise (fun a b => a.tierId < b.tierId))
    (t : TierDefinition) (ht : t ∈ tiers) :
    tiers.find? (fun u => u.tierId == t.tierId) = some t := by
  induction tiers with
  | nil => cases ht
  | cons a l ih =>
    rcases List.mem_cons.mp ht with rfl | ht'
    · simp [List.find?_cons]
    · have ha : a.tierId < t.tierId := (List.pairwise_cons.mp hs).1 t ht'
      have hne : (a.tierId == t.tierId) = false := by
        simp [Nat.ne_of_lt ha]
      rw [List.find?_cons, hne]
      exact ih (List.pairwise_cons.mp hs).2 ht'

/-- Helper: tool support of a member tier, read through the registry. -/
theorem tierSupportsTools_of_mem (tiers : List TierDefinition)
    (hs : tiers.Pairwise (fun a b => a.tierId < b.tierId))
    (t : TierDefinition) (ht : t ∈ tiers) :
    tierSupportsTools tiers t.tierId = t.supportsTools := by
  unfold tierSupportsTools
  rw [find?_tierId_of_mem tiers hs t ht]

/-- Helper: the classifier's suggestion, fully computed from the routing
table entry and the tool-raise result. -/
theorem classify_eq (cfg : RouterConfig) (len : Nat) (cat : Category)
    (tools : Bool) (hint : Option Nat) (base tb : Nat)
    (hrt : cfg.routingTable cat = some base)
    (htb : (if tools && !(tierSupportsTools cfg.tiers base) then
        lowestToolTier cfg.tiers else some base) = some tb) :
    classify cfg ⟨len, cat, tools, hint⟩ =
      .ok ⟨cat, tools, sizeClassOf cfg len,
        match hint with
        | some h => if tb < h then h else tb
        | none => tb⟩ := by
  unfold classify
  rw [hrt]
  simp only [htb]

/-- Helper: the classifier fails on an unmapped category. -/
theorem classify_eq_error_unmapped (cfg : RouterConfig) (len : Nat)
    (cat : Category) (tools : Bool) (hint : Option Nat)
    (hrt : cfg.routingTable cat = none) :
    classify cfg ⟨len, cat, tools, hint⟩ = .error (.unmappedCategory cat) := by
  unfold classify
  rw [hrt]

/-- Helper: the classifier fails when tools are required but no tier is
tool-capable. -/
theorem classify_eq_error_noTool (cfg : RouterConfig) (len : Nat)
    (cat : Category) (tools : Bool) (hint : Option Nat) (base : Nat)
    (hrt : cfg.routingTable cat = some base)
    (htb : (if tools && !(tierSupportsTools cfg.tiers base) then
        lowestToolTier cfg.tiers else some base) = none) :
    classify cfg ⟨len, cat, tools, hint⟩ = .error .noToolCapableTier := by
  unfold classify
  rw [hrt]
  simp only [htb]

/-- C10: `BridgeLayer.checkAvailability` returns exactly the constant slot
list `['09:00 AM', '10:00 AM', '02:00 PM', '03:00 PM']` for every
`locationId`, `date` and `serviceType`, and its result is independent of all
of its inputs, including the bridge instance itself. -/
theorem checkAvailability_constant :
    ∀ (G M R RC G2 M2 R2 RC2 : Type) (b : BridgeLayer G M R RC)
      (b2 : BridgeLayer G2 M2 R2 RC2) (l d s l2 d2 s2 : String),
      b.checkAvailability l d s = ["09:00 AM", "10:00 AM", "02:00 PM", "03:00 PM"] ∧
      b.checkAvailability l d s = b2.checkAvailability l2 d2 s2 :=
  fun _ _ _ _ _ _ _ _ _ _ _ _ _ _ _ _ => ⟨rfl, rfl⟩

/-- C8: the report operation is a pure read of the cost ledger: it returns
the ledger unchanged, and calling it twice with no intervening `execute`
(hence no intervening `record`) yields identical report values. -/
theorem reportOp_idempotent (tiers : List TierDefinition) (ledger : CostLedger) :
    (reportOp tiers ledger).2 = ledger ∧
    (reportOp tiers (reportOp tiers ledger).2).1 = (reportOp tiers ledger).1 :=
  ⟨rfl, rfl⟩

/-- C9: when any of `ghlPlugin`, `memoryManager`, `modelRouter` is absent
from the construction config, `transcriptProcessor` stays undefined; then
`processCall` rejects with a TypeError for every input, while
`processTranscript` resolves without performing any processing. -/
theorem bridge_missing_collaborator (G M R RC : Type)
    (config : BridgeLayerConfig G M R RC)
    (habsent : config.ghlPlugin = none ∨ config.memoryManager = none ∨
      config.modelRouter = none) :
    (BridgeLayer.create config).transcriptProcessor = none ∧
    (∀ (run : TranscriptRun G M R) (data : ProcessCallData),
      (BridgeLayer.create config).processCall run data =
        .error (.typeError
          "Cannot read properties of undefined (reading 'processCallTranscript')")) ∧
    (∀ (run : TranscriptRun G M R) (data : ProcessTranscriptData),
      (BridgeLayer.create config).processTranscript run data = .ok ()) := by
  have hnone : (BridgeLayer.create config).transcriptProcessor = none := by
    cases hg : config.ghlPlugin <;> cases hm : config.memoryManager <;>
      cases hr : config.modelRouter <;>
      simp_all [BridgeLayer.create]
  refine ⟨hnone, fun run data => ?_, fun run data => ?_⟩
  · unfold BridgeLayer.processCall
    rw [hnone]
  · unfold BridgeLayer.processTranscript
    rw [hnone]
    split <;> rfl

/-- Witness for C9 at a concrete config missing the model router. -/
theorem bridge_missing_collaborator_witness :
    (BridgeLayer.create noRouterConfig).transcriptProcessor = none ∧
    (BridgeLayer.create noRouterConfig).processCall
        (fun _ _ _ _ _ => .ok ⟨true, 0⟩) ⟨"c1", "l1", none, "hello", 60, "room"⟩ =
      .error (.typeError
        "Cannot read properties of undefined (reading 'processCallTranscript')") ∧
    (BridgeLayer.create noRouterConfig).processTranscript
        (fun _ _ _ _ _ => .ok ⟨true, 0⟩) ⟨"room", "c1", "hello", 60⟩ = .ok () := by
  have h := bridge_missing_collaborator Unit Unit Unit Unit noRouterConfig
    (Or.inr (Or.inr rfl))
  exact ⟨h.1, h.2.1 _ _, h.2.2 _ _⟩

/-- C6: the starting tier is monotone in the hint: a `minTierHint` ranking
higher than the computed suggestion replaces it, one ranking lower never
lowers the starting tier, and the hinted suggestion is never below the
hint-free suggestion. -/
theorem classify_hint_no_downgrade (cfg : RouterConfig) (len : Nat)
    (cat : Category) (tools : Bool) (h : Nat) (p0 p : TaskProfile)
    (h0 : classify cfg ⟨len, cat, tools, none⟩ = .ok p0)
    (hh : classify cfg ⟨len, cat, tools, some h⟩ = .ok p) :
    p0.suggestedTier ≤ p.suggestedTier ∧
    (p0.suggestedTier < h → p.suggestedTier = h) ∧
    (h ≤ p0.suggestedTier → p.suggestedTier = p0.suggestedTier) ∧
    (∀ (h2 : Nat) (p2 : TaskProfile), h ≤ h2 →
      classify cfg ⟨len, cat, tools, some h2⟩ = .ok p2 →
      p.suggestedTier ≤ p2.suggestedTier) := by
  cases hrt : cfg.routingTable cat with
  | none =>
    rw [classify_eq_error_unmapped cfg len cat tools none hrt] at h0
    exact absurd h0 (by simp)
  | some base =>
    cases htb : (if tools && !(tierSupportsTools cfg.tiers base) then
        lowestToolTier cfg.tiers else some base) with
    | none =>
      rw [classify_eq_error_noTool cfg len cat tools none base hrt htb] at h0
      exact absurd h0 (by simp)
    | some tb =>
      rw [classify_eq cfg len cat tools none base tb hrt htb] at h0
      rw [classify_eq cfg len cat tools (some h) base tb hrt htb] at hh
      have hp0 : p0.suggestedTier = tb := by
        rw [← Except.ok.inj h0]
      have hp : p.suggestedTier = if tb < h then h else tb := by
        rw [← Except.ok.inj hh]
      refine ⟨?_, ?_, ?_, ?_⟩
      · rw [hp0, hp]; split <;> omega
      · intro hlt; rw [hp0] at hlt; rw [hp, if_pos hlt]
      · intro hle; rw [hp0] at hle; rw [hp, hp0, if_neg (by omega)]
      · intro h2 p2 hh2 hcl2
        rw [classify_eq cfg len cat tools (some h2) base tb hrt htb] at hcl2
        have hp2 : p2.suggestedTier = if tb < h2 then h2 else tb := by
          rw [← Except.ok.inj hcl2]
        rw [hp, hp2]
        split <;> split <;> omega

/-- Witness for C6: on the demo configuration, a data-lookup task (base tier
one) hinted to tier two starts at tier two, and the hint-free profile is not
above it. -/
theorem classify_hint_no_downgrade_witness :
    classify demoCfg ⟨50, .dataLookup, false, none⟩ =
      .ok ⟨.dataLookup, false, .small, 1⟩ ∧
    classify demoCfg ⟨50, .dataLookup, false, some 2⟩ =
      .ok ⟨.dataLookup, false, .small, 2⟩ ∧
    (⟨.dataLookup, false, .small, 1⟩ : TaskProfile).suggestedTier ≤
      (⟨.dataLookup, false, .small, 2⟩ : TaskProfile).suggestedTier := by
  refine ⟨by rfl, by rfl, ?_⟩
  exact (classify_hint_no_downgrade demoCfg 50 .dataLookup false 2
    ⟨.dataLookup, false, .small, 1⟩ ⟨.dataLookup, false, .small, 2⟩
    (by rfl) (by rfl)).1

/-- C1: after a success attempt, the engine accepts (terminal state with the
single success attempt recorded) exactly when the reported confidence
reaches the tier's acceptance threshold; below the threshold the attempt is
recorded as low-confidence and the run escalates to the remaining higher
tiers (or returns degraded when none remain). -/
theorem escalation_accept_iff_threshold (th : ℚ) (adapter : Nat → ProviderResult)
    (t : TierDefinition) (rest : List TierDefinition) (conf : Option ℚ)
    (text : String) (iu ou : Nat)
    (had : adapter t.tierId = .ok conf text iu ou) :
    (runTiers th adapter (t :: rest) =
        ⟨[⟨t.tierId, .success, some (conf.getD 1), iu, ou⟩], some text, false⟩
      ↔ th ≤ conf.getD 1) ∧
    (conf.getD 1 < th →
      runTiers th adapter (t :: rest) =
        ⟨⟨t.tierId, .lowConfidence, some (conf.getD 1), iu, ou⟩ ::
            (runTiers th adapter rest).attempts,
          if rest.isEmpty then some text else (runTiers th adapter rest).result,
          if rest.isEmpty then true else (runTiers th adapter rest).degraded⟩) := by
  have hlow : ¬ th ≤ conf.getD 1 →
      runTiers th adapter (t :: rest) =
        ⟨⟨t.tierId, .lowConfidence, some (conf.getD 1), iu, ou⟩ ::
            (runTiers th adapter rest).attempts,
          if rest.isEmpty then some text else (runTiers th adapter rest).result,
          if rest.isEmpty then true else (runTiers th adapter rest).degraded⟩ := by
    intro hnle
    cases rest with
    | nil =>
      simp only [runTiers, had, List.isEmpty_nil, if_true]
      rw [if_neg hnle]
    | cons r1 rs =>
      conv_lhs => rw [runTiers]
      simp only [had, List.isEmpty_cons, Bool.false_eq_true, if_false]
      rw [if_neg hnle]
  constructor
  · constructor
    · intro hr
      by_contra hnle
      rw [hlow hnle] at hr
      cases rest with
      | nil => simp [runTiers] at hr
      | cons r1 rs => simp at hr
    · intro hle
      conv_lhs => rw [runTiers]
      simp only [had]
      rw [if_pos hle]
  · intro hlt
    exact hlow (not_le.mpr hlt)

/-- Witness for C1: a 0.9-confidence success at tier one is accepted under
the default 0.7 threshold with a single recorded attempt. -/
theorem escalation_accept_iff_threshold_witness :
    runTiers defaultThreshold demoAdapterOk [⟨1, 1 / 4, 1 / 2, false⟩] =
      ⟨[⟨1, .success, some ((9 : ℚ) / 10), 10, 5⟩], some "answer", false⟩ := by
  exact ((escalation_accept_iff_threshold defaultThreshold demoAdapterOk
    ⟨1, 1 / 4, 1 / 2, false⟩ [] (some (9 / 10)) "answer" 10 5 rfl).1).mpr
    (by norm_num [defaultThreshold])

/-- Helper: folding `record` over a list of attempts adds exactly the sum of
the per-attempt costs of that tier to its `costTotal`. -/
theorem recordAttempts_cost (tiers : List TierDefinition) (tid : Nat) :
    ∀ (attempts : List ExecutionAttempt) (l : CostLedger),
      ((recordAttempts tiers l attempts) tid).costTotal =
        (l tid).costTotal +
          ((attempts.filter (fun a => a.tierId == tid)).map (attemptCost tiers)).sum := by
  intro attempts
  induction attempts with
  | nil => intro l; simp [recordAttempts]
  | cons a as ih =>
    intro l
    have hstep : recordAttempts tiers l (a :: as) =
        recordAttempts tiers (record tiers l a.tierId a.inputUnits a.outputUnits) as := by
      simp [recordAttempts]
    rw [hstep, ih]
    by_cases hta : a.tierId = tid
    · subst hta
      simp only [List.filter_cons, beq_self_eq_true, if_true, List.map_cons, List.sum_cons]
      have : ((record tiers l a.tierId a.inputUnits a.outputUnits) a.tierId).costTotal =
          (l a.tierId).costTotal + attemptCost tiers a := by
        simp [record, attemptCost]
        ring
      rw [this]
      ring
    · have hbeq : (a.tierId == tid) = false := by simp [hta]
      simp only [List.filter_cons, hbeq, Bool.false_eq_true, if_false]
      have : ((record tiers l a.tierId a.inputUnits a.outputUnits) tid).costTotal =
          (l tid).costTotal := by
        simp only [record]
        rw [if_neg (fun h => hta h.symm)]
      rw [this]

/-- Helper: provider-unavailable attempts produced by the escalation engine
carry zero units (the backend was never reached). -/
theorem runTiers_unavailable_zero_units (th : ℚ) (adapter : Nat → ProviderResult) :
    ∀ (ts : List TierDefinition) (a : ExecutionAttempt),
      a ∈ (runTiers th adapter ts).attempts →
      a.outcomeKind = .providerUnavailable →
      a.inputUnits = 0 ∧ a.outputUnits = 0 := by
  intro ts
  induction ts with
  | nil => intro a ha; simp [runTiers] at ha
  | cons t rest ih =>
    intro a ha hkind
    cases had : adapter t.tierId with
    | unavailable =>
      rw [show runTiers th adapter (t :: rest) =
          ⟨⟨t.tierId, .providerUnavailable, none, 0, 0⟩ ::
              (runTiers th adapter rest).attempts,
            (runTiers th adapter rest).result,
            (runTiers th adapter rest).degraded⟩ from by
        conv_lhs => rw [runTiers]
        simp only [had]] at ha
      rcases List.mem_cons.mp ha with rfl | ha'
      · exact ⟨rfl, rfl⟩
      · exact ih a ha' hkind
    | error iu ou =>
      rw [show runTiers th adapter (t :: rest) =
          ⟨⟨t.tierId, .providerError, none, iu, ou⟩ ::
              (runTiers th adapter rest).attempts,
            (runTiers th adapter rest).result,
            (runTiers th adapter rest).degraded⟩ from by
        conv_lhs => rw [runTiers]
        simp only [had]] at ha
      rcases List.mem_cons.mp ha with rfl | ha'
      · cases hkind
      · exact ih a ha' hkind
    | ok conf text iu ou =>
      by_cases hth : th ≤ conf.getD 1
      · rw [show runTiers th adapter (t :: rest) =
            ⟨[⟨t.tierId, .success, some (conf.getD 1), iu, ou⟩],
              some text, false⟩ from by
          conv_lhs => rw [runTiers]
          simp only [had]
          rw [if_pos hth]] at ha
        rcases List.mem_cons.mp ha with rfl | ha'
        · cases hkind
        · simp at ha'
      · cases rest with
        | nil =>
          rw [show runTiers th adapter [t] =
              ⟨[⟨t.tierId, .lowConfidence, some (conf.getD 1), iu, ou⟩],
                some text, true⟩ from by
            simp only [runTiers, had]
            rw [if_neg hth]] at ha
          rcases List.mem_cons.mp ha with rfl | ha'
          · cases hkind
          · simp at ha'
        | cons r1 rs =>
          rw [show runTiers th adapter (t :: r1 :: rs) =
              ⟨⟨t.tierId, .lowConfidence, some (conf.getD 1), iu, ou⟩ ::
                  (runTiers th adapter (r1 :: rs)).attempts,
                (runTiers th adapter (r1 :: rs)).result,
                (runTiers th adapter (r1 :: rs)).degraded⟩ from by
            conv_lhs => rw [runTiers]
            simp only [had]
            rw [if_neg hth]] at ha
          rcases List.mem_cons.mp ha with rfl | ha'
          · cases hkind
          · exact ih a ha' hkind

/-- C7: `record(tierId, inputUnits, outputUnits)` increments the tier's
`callCount` by exactly one, adds the unit counts to the unit totals, and adds
exactly `inputUnits * inputCostPerUnit + outputUnits * outputCostPerUnit` to
its `costTotal`, leaving every other tier untouched; a zero-unit record (a
provider-unavailable attempt that never reached the backend) adds zero cost;
with non-negative rates `costTotal` is non-decreasing under `record`; and the
`costTotal` accumulated from any attempt sequence equals the sum of the
per-attempt costs recorded at that tier. -/
theorem record_cost_accounting (tiers : List TierDefinition) (ledger : CostLedger)
    (tid iu ou : Nat)
    (hrates : 0 ≤ (tierRates tiers tid).1 ∧ 0 ≤ (tierRates tiers tid).2) :
    (record tiers ledger tid iu ou) tid =
      ⟨(ledger tid).callCount + 1, (ledger tid).inputUnitsTotal + iu,
        (ledger tid).outputUnitsTotal + ou,
        (ledger tid).costTotal + iu * (tierRates tiers tid).1 +
          ou * (tierRates tiers tid).2⟩ ∧
    (∀ j, j ≠ tid → (record tiers ledger tid iu ou) j = ledger j) ∧
    ((record tiers ledger tid 0 0) tid).costTotal = (ledger tid).costTotal ∧
    (ledger tid).costTotal ≤ ((record tiers ledger tid iu ou) tid).costTotal ∧
    (∀ attempts : List ExecutionAttempt,
      ((recordAttempts tiers zeroLedger attempts) tid).costTotal =
        ((attempts.filter (fun a => a.tierId == tid)).map (attemptCost tiers)).sum) := by
  refine ⟨?_, ?_, ?_, ?_, ?_⟩
  · simp only [record, if_true]
  · intro j hj
    simp only [record]
    rw [if_neg hj]
  · simp only [record, if_true]
    push_cast
    ring
  · simp only [record, if_true]
    have h1 : 0 ≤ (iu : ℚ) * (tierRates tiers tid).1 :=
      mul_nonneg (by positivity) hrates.1
    have h2 : 0 ≤ (ou : ℚ) * (tierRates tiers tid).2 :=
      mul_nonneg (by positivity) hrates.2
    linarith
  · intro attempts
    rw [recordAttempts_cost]
    simp [zeroLedger]

/-- Witness for C7: recording a ten-input five-output call at demo tier one
(rates one-quarter and one-half per unit) yields one call, the unit totals,
and the exact linear cost. -/
theorem record_cost_accounting_witness :
    0 ≤ (tierRates demoTiers 1).1 ∧ 0 ≤ (tierRates demoTiers 1).2 ∧
    (record demoTiers zeroLedger 1 10 5) 1 =
      ⟨(zeroLedger 1).callCount + 1, (zeroLedger 1).inputUnitsTotal + 10,
        (zeroLedger 1).outputUnitsTotal + 5,
        (zeroLedger 1).costTotal + 10 * (tierRates demoTiers 1).1 +
          5 * (tierRates demoTiers 1).2⟩ := by
  have hrr : tierRates demoTiers 1 = (1 / 4, 1 / 2) := rfl
  refine ⟨by rw [hrr]; norm_num, by rw [hrr]; norm_num, ?_⟩
  exact (record_cost_accounting demoTiers zeroLedger 1 10 5
    ⟨by rw [hrr]; norm_num, by rw [hrr]; norm_num⟩).1

/-- Helper: one unfolding of the escalation run at an unavailable tier. -/
theorem runTiers_cons_unavailable (th : ℚ) (adapter : Nat → ProviderResult)
    (t : TierDefinition) (rest : List TierDefinition)
    (had : adapter t.tierId = .unavailable) :
    runTiers th adapter (t :: rest) =
      ⟨⟨t.tierId, .providerUnavailable, none, 0, 0⟩ ::
          (runTiers th adapter rest).attempts,
        (runTiers th adapter rest).result,
        (runTiers th adapter rest).degraded⟩ := by
  conv_lhs => rw [runTiers]
  simp only [had]

/-- Helper: one unfolding of the escalation run at a provider-error tier. -/
theorem runTiers_cons_error (th : ℚ) (adapter : Nat → ProviderResult)
    (t : TierDefinition) (rest : List TierDefinition) (iu ou : Nat)
    (had : adapter t.tierId = .error iu ou) :
    runTiers th adapter (t :: rest) =
      ⟨⟨t.tierId, .providerError, none, iu, ou⟩ ::
          (runTiers th adapter rest).attempts,
        (runTiers th adapter rest).result,
        (runTiers th adapter rest).degraded⟩ := by
  conv_lhs => rw [runTiers]
  simp only [had]

/-- Helper: one unfolding of the escalation run at an accepted success. -/
theorem runTiers_cons_accept (th : ℚ) (adapter : Nat → ProviderResult)
    (t : TierDefinition) (rest : List TierDefinition) (conf : Option ℚ)
    (text : String) (iu ou : Nat)
    (had : adapter t.tierId = .ok conf text iu ou) (hth : th ≤ conf.getD 1) :
    runTiers th adapter (t :: rest) =
      ⟨[⟨t.tierId, .success, some (conf.getD 1), iu, ou⟩], some text, false⟩ := by
  conv_lhs => rw [runTiers]
  simp only [had]
  rw [if_pos hth]

/-- Helper: one unfolding of the escalation run at a low-confidence
success. -/
theorem runTiers_cons_low (th : ℚ) (adapter : Nat → ProviderResult)
    (t : TierDefinition) (rest : List TierDefinition) (conf : Option ℚ)
    (text : String) (iu ou : Nat)
    (had : adapter t.tierId = .ok conf text iu ou) (hth : ¬ th ≤ conf.getD 1) :
    runTiers th adapter (t :: rest) =
      ⟨⟨t.tierId, .lowConfidence, some (conf.getD 1), iu, ou⟩ ::
          (runTiers th adapter rest).attempts,
        if rest.isEmpty then some text else (runTiers th adapter rest).result,
        if rest.isEmpty then true else (runTiers th adapter rest).degraded⟩ := by
  cases rest with
  | nil =>
    simp only [runTiers, had, List.isEmpty_nil, if_true]
    rw [if_neg hth]
  | cons r1 rs =>
    conv_lhs => rw [runTiers]
    simp only [had, List.isEmpty_cons, Bool.false_eq_true, if_false]
    rw [if_neg hth]

/-- Helper: the tierIds of the recorded attempts form a sublist of the
tierIds of the tier list the engine ran over. -/
theorem runTiers_tierIds_sublist (th : ℚ) (adapter : Nat → ProviderResult) :
    ∀ ts : List TierDefinition,
      ((runTiers th adapter ts).attempts.map (fun a => a.tierId)).Sublist
        (ts.map (fun t => t.tierId)) := by
  intro ts
  induction ts with
  | nil => simp [runTiers]
  | cons t rest ih =>
    cases had : adapter t.tierId with
    | unavailable =>
      rw [runTiers_cons_unavailable th adapter t rest had]
      simpa using ih.cons₂ t.tierId
    | error iu ou =>
      rw [runTiers_cons_error th adapter t rest iu ou had]
      simpa using ih.cons₂ t.tierId
    | ok conf text iu ou =>
      by_cases hth : th ≤ conf.getD 1
      · rw [runTiers_cons_accept th adapter t rest conf text iu ou had hth]
        simp
      · rw [runTiers_cons_low th adapter t rest conf text iu ou had hth]
        simpa using ih.cons₂ t.tierId

/-- Helper: the outcome and final ledger of a successful `execute`, in terms
of the escalation run over the tier suffix from the suggested tier. -/
theorem execute_ok_fields (cfg : RouterConfig) (adapter : Nat → ProviderResult)
    (req : TaskRequest) (ledger : CostLedger) (profile : TaskProfile)
    (outcome : RoutingOutcome) (ledger₂ : CostLedger)
    (hcl : classify cfg req = .ok profile)
    (hexec : execute cfg adapter req ledger = .ok (outcome, ledger₂)) :
    outcome.attempts = (runTiers (cfg.acceptThreshold req.category) adapter
      (tiersFrom cfg.tiers profile.suggestedTier)).attempts ∧
    outcome.result = (runTiers (cfg.acceptThreshold req.category) adapter
      (tiersFrom cfg.tiers profile.suggestedTier)).result ∧
    outcome.degraded = (runTiers (cfg.acceptThreshold req.category) adapter
      (tiersFrom cfg.tiers profile.suggestedTier)).degraded ∧
    ledger₂ = recordAttempts cfg.tiers ledger
      (runTiers (cfg.acceptThreshold req.category) adapter
        (tiersFrom cfg.tiers profile.suggestedTier)).attempts := by
  cases hfind : cfg.tiers.find? (fun t => t.tierId == profile.suggestedTier) with
  | none =>
    unfold execute at hexec
    simp only [hcl, hfind] at hexec
    simp at hexec
  | some t0 =>
    unfold execute at hexec
    simp only [hcl, hfind] at hexec
    have hp := Except.ok.inj hexec
    have ho : _ = outcome := congrArg Prod.fst hp
    have hl : _ = ledger₂ := congrArg Prod.snd hp
    subst ho
    subst hl
    exact ⟨rfl, rfl, rfl, rfl⟩

/-- Helper: `execute` succeeds whenever classification succeeds and the
suggested tier resolves in the registry. -/
theorem execute_isOk (cfg : RouterConfig) (adapter : Nat → ProviderResult)
    (req : TaskRequest) (ledger : CostLedger) (profile : TaskProfile)
    (t0 : TierDefinition)
    (hcl : classify cfg req = .ok profile)
    (hfind : cfg.tiers.find? (fun t => t.tierId == profile.suggestedTier) = some t0) :
    ∃ pr : RoutingOutcome × CostLedger,
      execute cfg adapter req ledger = .ok pr := by
  unfold execute
  simp only [hcl, hfind]
  exact ⟨_, rfl⟩

/-- C2: for every task executed through the façade, the tierIds of the
recorded attempts are strictly increasing, and at most one attempt exists
per tier within one escalation sequence. -/
theorem execute_attempts_monotonic (cfg : RouterConfig)
    (adapter : Nat → ProviderResult) (req : TaskRequest) (ledger : CostLedger)
    (outcome : RoutingOutcome) (ledger₂ : CostLedger)
    (hsorted : cfg.tiers.Pairwise (fun a b => a.tierId < b.tierId))
    (hexec : execute cfg adapter req ledger = .ok (outcome, ledger₂)) :
    (outcome.attempts.map (fun a => a.tierId)).Pairwise (· < ·) ∧
    ∀ tid, (outcome.attempts.map (fun a => a.tierId)).count tid ≤ 1 := by
  cases hcl : classify cfg req with
  | error e =>
    unfold execute at hexec
    simp only [hcl] at hexec
    simp at hexec
  | ok profile =>
    obtain ⟨hatt, -, -, -⟩ :=
      execute_ok_fields cfg adapter req ledger profile outcome ledger₂ hcl hexec
    have hsub := runTiers_tierIds_sublist (cfg.acceptThreshold req.category)
      adapter (tiersFrom cfg.tiers profile.suggestedTier)
    have hsorted' : ((tiersFrom cfg.tiers profile.suggestedTier).map
        (fun t => t.tierId)).Pairwise (· < ·) := by
      rw [List.pairwise_map]
      exact hsorted.filter _
    have hpw : (outcome.attempts.map (fun a => a.tierId)).Pairwise (· < ·) := by
      rw [hatt]
      exact hsorted'.sublist hsub
    refine ⟨hpw, fun tid => ?_⟩
    have hnd : (outcome.attempts.map (fun a => a.tierId)).Nodup :=
      hpw.imp (fun h => Nat.ne_of_lt h)
    exact List.nodup_iff_count_le_one.mp hnd tid

/-- Witness for C2: a demo run that escalates through tiers one and two has
strictly increasing attempt tierIds with at most one attempt per tier. -/
theorem execute_attempts_monotonic_witness :
    ∃ pr : RoutingOutcome × CostLedger,
      execute demoCfg demoAdapterLow ⟨50, .dataLookup, false, none⟩ zeroLedger =
        .ok pr ∧
      (pr.1.attempts.map (fun a => a.tierId)).Pairwise (· < ·) ∧
      ∀ tid, (pr.1.attempts.map (fun a => a.tierId)).count tid ≤ 1 := by
  obtain ⟨pr, hexec⟩ := execute_isOk demoCfg demoAdapterLow
    ⟨50, .dataLookup, false, none⟩ zeroLedger
    ⟨.dataLookup, false, .small, 1⟩ ⟨1, 1 / 4, 1 / 2, false⟩ rfl rfl
  obtain ⟨o, l⟩ := pr
  have h := execute_attempts_monotonic demoCfg demoAdapterLow
    ⟨50, .dataLookup, false, none⟩ zeroLedger o l (by decide) hexec
  exact ⟨(o, l), hexec, h.1, h.2⟩

/-- Helper: when every tier of the list fails with a provider error, the
escalation run records exactly one provider-error attempt per tier and
carries no result. -/
theorem runTiers_all_error (th : ℚ) (adapter : Nat → ProviderResult) :
    ∀ ts : List TierDefinition,
      (∀ t ∈ ts, ∃ iu ou, adapter t.tierId = .error iu ou) →
      (runTiers th adapter ts).result = none ∧
      (runTiers th adapter ts).attempts.length = ts.length ∧
      ∀ a ∈ (runTiers th adapter ts).attempts, a.outcomeKind = .providerError := by
  intro ts
  induction ts with
  | nil => intro _; simp [runTiers]
  | cons t rest ih =>
    intro herr
    obtain ⟨iu, ou, had⟩ := herr t (List.mem_cons_self t rest)
    have hrest := ih (fun u hu => herr u (List.mem_cons_of_mem t hu))
    rw [runTiers_cons_error th adapter t rest iu ou had]
    refine ⟨hrest.1, by simpa using hrest.2.1, fun a ha => ?_⟩
    rcases List.mem_cons.mp ha with rfl | ha'
    · rfl
    · exact hrest.2.2 a ha'

/-- C3: if every configured tier fails with a provider error and the run
starts at the lowest tier, `execute` returns an exhausted outcome with no
result and one provider-error attempt per configured tier, the aggregated
per-attempt diagnostics of the failure. -/
theorem execute_exhaustion_complete (cfg : RouterConfig)
    (adapter : Nat → ProviderResult) (req : TaskRequest) (ledger : CostLedger)
    (profile : TaskProfile) (outcome : RoutingOutcome) (ledger₂ : CostLedger)
    (hcl : classify cfg req = .ok profile)
    (hstart : ∀ t ∈ cfg.tiers, profile.suggestedTier ≤ t.tierId)
    (herr : ∀ t ∈ cfg.tiers, ∃ iu ou, adapter t.tierId = .error iu ou)
    (hexec : execute cfg adapter req ledger = .ok (outcome, ledger₂)) :
    outcome.result = none ∧
    outcome.attempts.length = cfg.tiers.length ∧
    ∀ a ∈ outcome.attempts, a.outcomeKind = .providerError := by
  obtain ⟨hatt, hres, -, -⟩ :=
    execute_ok_fields cfg adapter req ledger profile outcome ledger₂ hcl hexec
  have hts : tiersFrom cfg.tiers profile.suggestedTier = cfg.tiers := by
    unfold tiersFrom
    rw [List.filter_eq_self]
    intro t ht
    simpa using hstart t ht
  rw [hts] at hatt hres
  have h := runTiers_all_error (cfg.acceptThreshold req.category) adapter
    cfg.tiers herr
  rw [hatt, hres]
  exact h

/-- Witness for C3: on the demo configuration with an all-error adapter, the
outcome carries no result and three provider-error attempts. -/
theorem execute_exhaustion_complete_witness :
    ∃ pr : RoutingOutcome × CostLedger,
      execute demoCfg demoAdapterErr ⟨50, .routingClassification, false, none⟩
        zeroLedger = .ok pr ∧
      pr.1.result = none ∧
      pr.1.attempts.length = demoCfg.tiers.length ∧
      ∀ a ∈ pr.1.attempts, a.outcomeKind = .providerError := by
  obtain ⟨pr, hexec⟩ := execute_isOk demoCfg demoAdapterErr
    ⟨50, .routingClassification, false, none⟩ zeroLedger
    ⟨.routingClassification, false, .small, 0⟩ ⟨0, 0, 0, false⟩ rfl rfl
  obtain ⟨o, l⟩ := pr
  have h := execute_exhaustion_complete demoCfg demoAdapterErr
    ⟨50, .routingClassification, false, none⟩ zeroLedger
    ⟨.routingClassification, false, .small, 0⟩ o l rfl
    (by decide) (fun t _ => ⟨0, 0, rfl⟩) hexec
  exact ⟨(o, l), hexec, h.1, h.2.1, h.2.2⟩

/-- Helper: when every tier before the last escalates and the last tier
returns a success below the threshold, the run returns that last result
flagged degraded. -/
theorem runTiers_last_low_degraded (th : ℚ) (adapter : Nat → ProviderResult) :
    ∀ (ts : List TierDefinition) (t : TierDefinition),
      (∀ u ∈ ts.dropLast, Escalates th adapter u) →
      ts.getLast? = some t →
      ∀ (conf : Option ℚ) (text : String) (iu ou : Nat),
        adapter t.tierId = .ok conf text iu ou →
        conf.getD 1 < th →
        (runTiers th adapter ts).result = some text ∧
        (runTiers th adapter ts).degraded = true := by
  intro ts
  induction ts with
  | nil => intro t _ hlast; simp at hlast
  | cons t0 rest ih =>
    intro t hesc hlast conf text iu ou had hconf
    cases rest with
    | nil =>
      have ht : t0 = t := by simpa using hlast
      subst ht
      rw [runTiers_cons_low th adapter t0 [] conf text iu ou had (not_le.mpr hconf)]
      simp
    | cons r1 rs =>
      have hesc0 : Escalates th adapter t0 := by
        refine hesc t0 ?_
        show t0 ∈ (t0 :: r1 :: rs).dropLast
        rw [List.dropLast_cons₂]
        exact List.mem_cons_self t0 _
      have hlast' : (r1 :: rs).getLast? = some t := by
        rwa [List.getLast?_cons_cons] at hlast
      have hesc' : ∀ u ∈ (r1 :: rs).dropLast, Escalates th adapter u := by
        intro u hu
        refine hesc u ?_
        show u ∈ (t0 :: r1 :: rs).dropLast
        rw [List.dropLast_cons₂]
        exact List.mem_cons_of_mem t0 hu
      have hrec := ih t hesc' hlast' conf text iu ou had hconf
      rcases hesc0 with hu | ⟨iu0, ou0, he⟩ | ⟨c0, s0, iu0, ou0, ho, hc0⟩
      · rw [runTiers_cons_unavailable th adapter t0 (r1 :: rs) hu]
        exact hrec
      · rw [runTiers_cons_error th adapter t0 (r1 :: rs) iu0 ou0 he]
        exact hrec
      · rw [runTiers_cons_low th adapter t0 (r1 :: rs) c0 s0 iu0 ou0 ho
          (not_le.mpr hc0)]
        simpa using hrec

/-- C4: when the attempt at the highest attempted tier is a success below
the acceptance threshold (every earlier tier having escalated), `execute`
returns that last attempt's result flagged `degraded = true` — the
best-effort answer is not dropped. -/
theorem execute_top_tier_degraded (cfg : RouterConfig)
    (adapter : Nat → ProviderResult) (req : TaskRequest) (ledger : CostLedger)
    (profile : TaskProfile) (outcome : RoutingOutcome) (ledger₂ : CostLedger)
    (t : TierDefinition) (conf : Option ℚ) (text : String) (iu ou : Nat)
    (hcl : classify cfg req = .ok profile)
    (hexec : execute cfg adapter req ledger = .ok (outcome, ledger₂))
    (hesc : ∀ u ∈ (tiersFrom cfg.tiers profile.suggestedTier).dropLast,
      Escalates (cfg.acceptThreshold req.category) adapter u)
    (hlast : (tiersFrom cfg.tiers profile.suggestedTier).getLast? = some t)
    (had : adapter t.tierId = .ok conf text iu ou)
    (hconf : conf.getD 1 < cfg.acceptThreshold req.category) :
    outcome.result = some text ∧ outcome.degraded = true := by
  obtain ⟨-, hres, hdeg, -⟩ :=
    execute_ok_fields cfg adapter req ledger profile outcome ledger₂ hcl hexec
  have h := runTiers_last_low_degraded (cfg.acceptThreshold req.category)
    adapter (tiersFrom cfg.tiers profile.suggestedTier) t hesc hlast
    conf text iu ou had hconf
  rw [hres, hdeg]
  exact h

/-- Witness for C4: a 0.5-confidence success at the demo top tier (the only
tier at or above the conversational-response base tier) comes back as the
result with the degraded flag set. -/
theorem execute_top_tier_degraded_witness :
    ∃ pr : RoutingOutcome × CostLedger,
      execute demoCfg demoAdapterLow ⟨50, .conversationalResponse, false, none⟩
        zeroLedger = .ok pr ∧
      pr.1.result = some "best effort" ∧ pr.1.degraded = true := by
  obtain ⟨pr, hexec⟩ := execute_isOk demoCfg demoAdapterLow
    ⟨50, .conversationalResponse, false, none⟩ zeroLedger
    ⟨.conversationalResponse, false, .small, 2⟩ ⟨2, 3, 15, true⟩ rfl rfl
  obtain ⟨o, l⟩ := pr
  have h := execute_top_tier_degraded demoCfg demoAdapterLow
    ⟨50, .conversationalResponse, false, none⟩ zeroLedger
    ⟨.conversationalResponse, false, .small, 2⟩ o l ⟨2, 3, 15, true⟩
    (some (1 / 2)) "best effort" 3 4 rfl hexec
    (by
      intro u hu
      rw [show (tiersFrom demoCfg.tiers
        ((⟨.conversationalResponse, false, .small, 2⟩ : TaskProfile).suggestedTier)).dropLast
          = [] from rfl] at hu
      cases hu)
    rfl rfl (by norm_num [demoCfg, defaultThreshold])
  exact ⟨(o, l), hexec, h.1, h.2⟩

/-- Helper: a positive tool-support lookup exhibits the registry tier it
found. -/
theorem tierSupportsTools_true_elim (tiers : List TierDefinition) (tid : Nat)
    (h : tierSupportsTools tiers tid = true) :
    ∃ u ∈ tiers, u.tierId = tid ∧ u.supportsTools = true := by
  unfold tierSupportsTools at h
  cases hf : tiers.find? (fun t => t.tierId == tid) with
  | none => rw [hf] at h; cases h
  | some u =>
    rw [hf] at h
    exact ⟨u, List.mem_of_find?_eq_some hf, by simpa using List.find?_some hf, h⟩

/-- Helper: a successful lowest-tool-tier lookup exhibits the registry tier
it found. -/
theorem lowestToolTier_some_elim (tiers : List TierDefinition) (lt : Nat)
    (h : lowestToolTier tiers = some lt) :
    ∃ u ∈ tiers, u.tierId = lt ∧ u.supportsTools = true := by
  unfold lowestToolTier at h
  cases hf : tiers.find? (fun t => t.supportsTools) with
  | none => rw [hf] at h; cases h
  | some u =>
    rw [hf] at h
    exact ⟨u, List.mem_of_find?_eq_some hf, by simpa using h, List.find?_some hf⟩

/-- Helper: with upward-closed tool capability, any tierId at or above a
tool-capable member tier is tool-capable. -/
theorem tierSupportsTools_upward (tiers : List TierDefinition)
    (hsorted : tiers.Pairwise (fun a b => a.tierId < b.tierId))
    (hmono : ∀ a ∈ tiers, ∀ b ∈ tiers,
      a.tierId ≤ b.tierId → a.supportsTools = true → b.supportsTools = true)
    (u : TierDefinition) (hu : u ∈ tiers) (hut : u.supportsTools = true)
    (h : Nat) (hh : ∃ v ∈ tiers, v.tierId = h) (hle : u.tierId ≤ h) :
    tierSupportsTools tiers h = true := by
  obtain ⟨v, hv, hvh⟩ := hh
  have hvt := hmono u hu v hv (by rw [hvh]; exact hle) hut
  rw [← hvh, tierSupportsTools_of_mem tiers hsorted v hv]
  exact hvt

/-- C5: for a tools-requiring request whose base tier lacks tool support and
with no hint, the classifier raises the suggestion to exactly the
lowest-ranked tool-capable tier; and (under the spec's registry invariants —
ascending tierIds, capability monotone in tier, hints referencing existing
tiers) every profile the classifier produces satisfies
`requiresTools ⇒ suggested tier supports tools`. -/
theorem classify_tools_invariant (cfg : RouterConfig) (req : TaskRequest)
    (p : TaskProfile)
    (hsorted : cfg.tiers.Pairwise (fun a b => a.tierId < b.tierId))
    (hmono : ∀ a ∈ cfg.tiers, ∀ b ∈ cfg.tiers,
      a.tierId ≤ b.tierId → a.supportsTools = true → b.supportsTools = true)
    (hhint : ∀ h, req.minTierHint = some h → ∃ v ∈ cfg.tiers, v.tierId = h)
    (htools : req.requiresTools = true)
    (hcl : classify cfg req = .ok p) :
    (∀ base, cfg.routingTable req.category = some base →
      tierSupportsTools cfg.tiers base = false →
      req.minTierHint = none →
      lowestToolTier cfg.tiers = some p.suggestedTier) ∧
    tierSupportsTools cfg.tiers p.suggestedTier = true := by
  obtain ⟨len, cat, tools, hint⟩ := req
  simp only at htools hhint
  subst htools
  cases hrt : cfg.routingTable cat with
  | none =>
    rw [classify_eq_error_unmapped cfg len cat true hint hrt] at hcl
    exact absurd hcl (by simp)
  | some base =>
    cases hbase : tierSupportsTools cfg.tiers base with
    | true =>
      have htb : (if true && !(tierSupportsTools cfg.tiers base) then
          lowestToolTier cfg.tiers else some base) = some base := by
        simp [hbase]
      rw [classify_eq cfg len cat true hint base base hrt htb] at hcl
      obtain rfl : p = _ := (Except.ok.inj hcl).symm
      refine ⟨fun base' hbase' hnosup _ => ?_, ?_⟩
      · obtain rfl : base = base' := Option.some.inj hbase'
        rw [hbase] at hnosup
        cases hnosup
      · obtain ⟨u, hu, hutid, hut⟩ := tierSupportsTools_true_elim cfg.tiers base hbase
        cases hint with
        | none => exact hbase
        | some h =>
          simp only
          by_cases hlt : base < h
          · rw [if_pos hlt]
            exact tierSupportsTools_upward cfg.tiers hsorted hmono u hu hut h
              (hhint h rfl) (by rw [hutid]; exact Nat.le_of_lt hlt)
          · rw [if_neg hlt]
            exact hbase
    | false =>
      cases hlow : lowestToolTier cfg.tiers with
      | none =>
        have htb : (if true && !(tierSupportsTools cfg.tiers base) then
            lowestToolTier cfg.tiers else some base) = none := by
          simp [hbase, hlow]
        rw [classify_eq_error_noTool cfg len cat true hint base hrt htb] at hcl
        exact absurd hcl (by simp)
      | some lt =>
        have htb : (if true && !(tierSupportsTools cfg.tiers base) then
            lowestToolTier cfg.tiers else some base) = some lt := by
          simp [hbase, hlow]
        rw [classify_eq cfg len cat true hint base lt hrt htb] at hcl
        obtain rfl : p = _ := (Except.ok.inj hcl).symm
        obtain ⟨u, hu, hutid, hut⟩ := lowestToolTier_some_elim cfg.tiers lt hlow
        refine ⟨fun base' hbase' _ hnone => ?_, ?_⟩
        · subst hnone
          rfl
        · cases hint with
          | none =>
            simp only
            rw [← hutid, tierSupportsTools_of_mem cfg.tiers hsorted u hu]
            exact hut
          | some h =>
            simp only
            by_cases hlth : lt < h
            · rw [if_pos hlth]
              exact tierSupportsTools_upward cfg.tiers hsorted hmono u hu hut h
                (hhint h rfl) (by rw [hutid]; exact Nat.le_of_lt hlth)
            · rw [if_neg hlth]
              rw [← hutid, tierSupportsTools_of_mem cfg.tiers hsorted u hu]
              exact hut

/-- Witness for C5: on the demo configuration a tools-requiring
routing-classification task (base tier zero, no tool support below tier
two) is raised directly to tier two, the lowest tool-capable tier. -/
theorem classify_tools_invariant_witness :
    lowestToolTier demoCfg.tiers = some 2 ∧
    tierSupportsTools demoCfg.tiers 2 = true := by
  have h := classify_tools_invariant demoCfg ⟨50, .routingClassification, true, none⟩
    ⟨.routingClassification, true, .small, 2⟩ (by decide)
    (by decide)
    (fun h hh => by cases hh) rfl rfl
  exact ⟨h.1 0 rfl rfl rfl, h.2⟩
